import Mathlib

/-!
Verification of the flat-reference-to-chunk-index conversion logic of
`src/zarr/virtual-zarr/parquet_to_icechunk.py`.

The Python module converts a tabular list of chunk references (rows with a
source location, byte offset and byte length) into per-variable lists of
`icechunk.VirtualChunkSpec` values, under two conventions:

* implicit mode (`kerchunk_parquet_to_icechunk`): the row position is the
  row-major flat chunk index;
* explicit mode (`explicit_parquet_to_icechunk`): each row carries a
  `variable` tag and explicit index columns `i0, i1, ...`.

The embedding below models a pandas `DataFrame` as a list of column names
plus a list of rows (association lists from column name to cell value),
with the default `RangeIndex`, so that `iterrows` yields 0-based positions.
Cell values are `null` (pandas NaN), strings or integers.  Python
exceptions (`KeyError`, `TypeError`, `ValueError`) are modelled with an
`Except` error type.  Store I/O performed by the surrounding
`create_icechunk_from_flat_parquet` (icechunk repository and zarr array
creation) is effectful glue outside the conversion logic and is elided;
only its reference-conversion and mode-dispatch logic is embedded.
-/

namespace ParquetToIcechunk

/-- Value held by one cell of the reference table: pandas NaN / None
(`null`), a string, or an integer. -/
inductive Cell
  | null
  | str (s : String)
  | int (n : Int)
deriving DecidableEq, Repr

/-- Errors the Python conversion code can raise, by exception class. -/
inductive PyError
  | keyError (col : String)
  | typeError (msg : String)
  | valueError (msg : String)
deriving DecidableEq, Repr

deriving instance DecidableEq for Except

/-- One row of a DataFrame: an association list from column name to cell. -/
abbrev Row := List (String × Cell)

/-- A pandas DataFrame with its default `RangeIndex`: frame-level column
names plus a list of rows. -/
structure Frame where
  cols : List String
  rows : List Row
deriving DecidableEq, Repr

/-- Reading `row[c]` from a DataFrame row: pandas raises `KeyError` when
`c` is not among the frame's columns; otherwise the cell value (a cell
missing from a row of a well-formed frame is read as NaN). -/
def getCell (cols : List String) (row : Row) (c : String) : Except PyError Cell :=
  if cols.contains c then .ok ((row.lookup c).getD .null) else .error (.keyError c)

/-- Reading a whole column `df[c]`: `KeyError` when absent from the frame. -/
def getColumn (df : Frame) (c : String) : Except PyError (List Cell) :=
  if df.cols.contains c then .ok (df.rows.map (fun r => (r.lookup c).getD .null))
  else .error (.keyError c)

/-- Python `str` value of a cell, as used for `VirtualChunkSpec.location`
(a non-string location is a type error at the spec boundary). -/
def cellStr : Cell → Except PyError String
  | .str s => .ok s
  | _ => .error (.typeError "location must be a string")

/-- Python `int(...)` applied to a cell holding an integer; `int()` of NaN
or of a non-numeric string raises. -/
def cellInt : Cell → Except PyError Int
  | .int n => .ok n
  | _ => .error (.valueError "invalid literal for int")

/-- Whether a cell holds an integer (the well-formedness side conditions of
the theorems below use this to rule out the `cellInt` failure case). -/
def cellIsInt : Cell → Bool
  | .int _ => true
  | _ => false

/-- Total integer value of a cell, defaulting to 0; only ever applied under
a `cellIsInt` hypothesis. -/
def cellIntD : Cell → Int
  | .int n => n
  | _ => 0

/-- Pandas elementwise equality as used by `df[df["variable"] == var]`:
NaN compares unequal to everything, including itself. -/
def pdEq : Cell → Cell → Bool
  | .null, _ => false
  | _, .null => false
  | .str a, .str b => a == b
  | .int a, .int b => a == b
  | .str _, .int _ => false
  | .int _, .str _ => false

/-- Helper for `pdUnique`: keep the first occurrence of each value. -/
def pdUniqueAux (seen : List Cell) : List Cell → List Cell
  | [] => []
  | c :: cs => if c ∈ seen then pdUniqueAux seen cs else c :: pdUniqueAux (c :: seen) cs

/-- Pandas `Series.unique`: values in order of first appearance, each once. -/
def pdUnique (l : List Cell) : List Cell := pdUniqueAux [] l

/-- Loop body of `flat_to_chunk_index`: the Python `for n in
reversed(n_chunks_per_dim)` loop, taking `remaining % n` and then
`remaining //= n`; the argument list is the reversed dimension list and
the result is the list of appended coordinates in loop order. -/
def flatToChunkGo : Nat → List Nat → List Nat
  | _, [] => []
  | remaining, n :: ns => (remaining % n) :: flatToChunkGo (remaining / n) ns

/-- Translation of `flat_to_chunk_index(flat_idx, n_chunks_per_dim)`
(`parquet_to_icechunk.py` lines 19-26): convert a flat row index to a
chunk coordinate tuple in row-major order, by iterating over the reversed
dimension list and reversing the accumulated coordinates at the end.
Indices are non-negative (Python `%` and `//` on non-negative operands
with positive divisors agree with `Nat.mod` and `Nat.div`). -/
def flat_to_chunk_index (flat_idx : Nat) (n_chunks_per_dim : List Nat) : List Nat :=
  (flatToChunkGo flat_idx n_chunks_per_dim.reverse).reverse

/-- Output record mirroring `icechunk.VirtualChunkSpec` as constructed by
the converter: chunk index tuple, source location, byte offset, length. -/
structure VirtualChunkSpec where
  index : List Int
  location : String
  offset : Int
  length : Int
deriving DecidableEq, Repr

/-- Choice of the size column in implicit mode: `"size" if "size" in
refs_df.columns else "length"` (line 54). -/
def size_col_of (cols : List String) : String :=
  if cols.contains "size" then "size" else "length"

/-- Per-dimension chunk counts (line 51): `tuple((s + c - 1) // c for s, c
in zip(shape, chunks))`.  Python's `zip` silently truncates to the
shorter tuple; there is no rank validation. -/
def chunkCounts (shape chunks : List Nat) : List Nat :=
  (shape.zip chunks).map (fun p => (p.1 + p.2 - 1) / p.2)

/-- Loop of `kerchunk_parquet_to_icechunk` (lines 56-67): iterate rows with
their position `i`, skip rows whose `path` is NaN, and emit one
`VirtualChunkSpec` per remaining row, with index
`flat_to_chunk_index(i, n_chunks_per_dim)` and the row's path, offset and
size/length values.  Lookups and `int(...)` conversions are performed in
the Python evaluation order, so the first failing row aborts the loop. -/
def kerchunkLoop (cols : List String) (size_col : String) (n_chunks : List Nat) :
    Nat → List Row → Except PyError (List VirtualChunkSpec)
  | _, [] => .ok []
  | i, row :: rest => do
    let path ← getCell cols row "path"
    if path = .null then
      kerchunkLoop cols size_col n_chunks (i + 1) rest
    else
      let location ← cellStr path
      let offset ← cellInt (← getCell cols row "offset")
      let length ← cellInt (← getCell cols row size_col)
      let specs ← kerchunkLoop cols size_col n_chunks (i + 1) rest
      .ok (⟨(flat_to_chunk_index i n_chunks).map Int.ofNat, location, offset, length⟩ :: specs)

/-- Translation of `kerchunk_parquet_to_icechunk(refs_df, shape, chunks,
dtype, dims, variable_name)` (lines 28-69).  The per-dimension chunk
counts are `(s + c - 1) // c` over `zip(shape, chunks)` — note Python's
`zip` silently truncates to the shorter of the two tuples.  `dtype`,
`dims` and `variable_name` are accepted and ignored, exactly as in the
Python body. -/
def kerchunk_parquet_to_icechunk (refs_df : Frame) (shape chunks : List Nat)
    (dtype : String) (dims : List String) (variable_name : String) :
    Except PyError (List VirtualChunkSpec) :=
  kerchunkLoop refs_df.cols (size_col_of refs_df.cols) (chunkCounts shape chunks) 0 refs_df.rows

/-- Column-name test of the index-column pattern: `c.startswith("i") and
c[1:].isdigit()` (line 84); the empty suffix is not a digit string. -/
def isIdxCol (c : String) : Bool :=
  match c.toList with
  | [] => false
  | ch :: rest => ch == 'i' && !rest.isEmpty && rest.all (fun d => d.isDigit)

/-- Lexicographic comparison of char lists by Unicode code point, the
order Python's `sorted` uses on strings. -/
def charListLe : List Char → List Char → Bool
  | [], _ => true
  | _ :: _, [] => false
  | a :: as, b :: bs => if a = b then charListLe as bs else decide (a < b)

/-- Python's string order (lexicographic by code point) as a relation. -/
def pyLe (a b : String) : Prop := charListLe a.toList b.toList = true

instance : DecidableRel pyLe := fun _ _ => inferInstanceAs (Decidable (_ = true))

/-- Python `sorted` on a list of strings: a stable sort under `pyLe`. -/
def pySorted (l : List String) : List String := List.insertionSort pyLe l

/-- Index columns of an explicit-mode table: `sorted([c for c in
refs_df.columns if c.startswith("i") and c[1:].isdigit()])` (line 84).
The sort is lexicographic on the column names. -/
def idxColsOf (df : Frame) : List String :=
  pySorted (df.cols.filter (fun c => isIdxCol c))

/-- Coordinate tuple of one explicit-mode row: `tuple(int(row[c]) for c in
idx_cols)` (line 94), with the generator's left-to-right evaluation and
error order. -/
def collectIdx (cols : List String) (row : Row) : List String → Except PyError (List Int)
  | [] => .ok []
  | c :: cs => do
    let v ← cellInt (← getCell cols row c)
    let rest ← collectIdx cols row cs
    .ok (v :: rest)

/-- Inner row loop of `explicit_parquet_to_icechunk` (lines 90-101): skip
NaN-path rows, otherwise build the index tuple from the index columns and
emit a `VirtualChunkSpec` from the row's path, offset and length. -/
def explicitLoop (cols : List String) (idx_cols : List String) :
    List Row → Except PyError (List VirtualChunkSpec)
  | [] => .ok []
  | row :: rest => do
    let path ← getCell cols row "path"
    if path = .null then
      explicitLoop cols idx_cols rest
    else
      let chunk_idx ← collectIdx cols row idx_cols
      let location ← cellStr path
      let offset ← cellInt (← getCell cols row "offset")
      let length ← cellInt (← getCell cols row "length")
      let specs ← explicitLoop cols idx_cols rest
      .ok (⟨chunk_idx, location, offset, length⟩ :: specs)

/-- Outer loop of `explicit_parquet_to_icechunk` (lines 86-102): for each
value of the `variable` column in order of first appearance, convert the
sub-table `refs_df[refs_df["variable"] == var]` (pandas elementwise
equality) and record the variable's spec list. -/
def explicitGroups (cols : List String) (idx_cols : List String) :
    List Cell → List Row → Except PyError (List (Cell × List VirtualChunkSpec))
  | [], _ => .ok []
  | v :: vs, rows => do
    let specs ← explicitLoop cols idx_cols
      (rows.filter (fun r => pdEq ((r.lookup "variable").getD .null) v))
    let rest ← explicitGroups cols idx_cols vs rows
    .ok ((v, specs) :: rest)

/-- Translation of `explicit_parquet_to_icechunk(refs_df)` (lines 72-104):
find the index columns by the `i{d}` pattern and sort them, then group the
rows by the `variable` column and convert each group.  The result is the
insertion-ordered dict `variable value -> spec list`. -/
def explicit_parquet_to_icechunk (refs_df : Frame) :
    Except PyError (List (Cell × List VirtualChunkSpec)) := do
  let idx_cols := idxColsOf refs_df
  let vars ← getColumn refs_df "variable"
  explicitGroups refs_df.cols idx_cols (pdUnique vars) refs_df.rows

/-- Per-variable array metadata handed to
`create_icechunk_from_flat_parquet` (shape, chunks, dtype, dims). -/
structure VarMeta where
  shape : List Nat
  chunks : List Nat
  dtype : String
  dims : List String
deriving DecidableEq, Repr

/-- Result of the reference-conversion part of
`create_icechunk_from_flat_parquet`: which mode was selected and the specs
it produced. -/
inductive FlatSpecs
  | explicitMode (var_specs : List (Cell × List VirtualChunkSpec))
  | implicitMode (variable_name : String) (specs : List VirtualChunkSpec)
deriving DecidableEq, Repr

/-- Reference-conversion and mode-dispatch logic of
`create_icechunk_from_flat_parquet` (lines 134-136 and 183-214): explicit
mode is selected exactly when the table has a `variable` column and at
least one `i{d}` column; otherwise implicit mode requires exactly one
variable in `metadata` (`ValueError` otherwise) and converts with that
variable's shape and chunks.  The icechunk/zarr store writing that
surrounds this logic in the Python function performs I/O and is elided. -/
def create_icechunk_from_flat_parquet (df : Frame) (metadata : List (String × VarMeta)) :
    Except PyError FlatSpecs :=
  let has_variable_col := df.cols.contains "variable"
  let has_index_cols := df.cols.any (fun c => isIdxCol c)
  if has_variable_col && has_index_cols then do
    let var_specs ← explicit_parquet_to_icechunk df
    .ok (.explicitMode var_specs)
  else
    match metadata with
    | [(var, meta)] => do
      let specs ← kerchunk_parquet_to_icechunk df meta.shape meta.chunks meta.dtype meta.dims var
      .ok (.implicitMode var specs)
    | _ => .error (.valueError "Implicit format requires exactly one variable in metadata")

/-!
Spec-side definitions: row-major flattening (glossary and testable
property 1 of the spec), well-formedness predicates for the theorems'
side conditions, and non-monadic characterizations of the two converters.
-/

/-- Row-major flattening of a coordinate over per-dimension chunk counts
(the last dimension varies fastest): the Horner form
`((c0 * n1 + c1) * n2 + c2) ...`. -/
def flattenRowMajor (coord dims : List Nat) : Nat :=
  (coord.zip dims).foldl (fun acc p => acc * p.2 + p.1) 0

/-- Value of a row's `path` cell, NaN when absent. -/
def pathValue (row : Row) : Cell := (row.lookup "path").getD .null

/-- Value of a row's `variable` cell, NaN when absent. -/
def varValue (row : Row) : Cell := (row.lookup "variable").getD .null

/-- Well-typedness of one implicit-mode row: the `path` column exists and,
when the row's path is a string, the `offset` and size columns exist and
hold integers.  Rows with a NaN path need nothing further, because the
converter skips them before touching any other column. -/
def implicitRowOk (cols : List String) (size_col : String) (row : Row) : Bool :=
  cols.contains "path" &&
    match pathValue row with
    | .null => true
    | .str _ => cols.contains "offset" && cols.contains size_col &&
        cellIsInt ((row.lookup "offset").getD .null) &&
        cellIsInt ((row.lookup size_col).getD .null)
    | .int _ => false

/-- Weaker well-typedness used for the missing-size-column theorems: only
`path` and `offset` are constrained, the size column may be absent. -/
def implicitPreOk (cols : List String) (row : Row) : Bool :=
  cols.contains "path" &&
    match pathValue row with
    | .null => true
    | .str _ => cols.contains "offset" && cellIsInt ((row.lookup "offset").getD .null)
    | .int _ => false

/-- Non-monadic description of what one implicit-mode row contributes: NaN
path means no entry; a string path means one entry whose index is the
row-major coordinate of the row position. -/
def implicitEntry (size_col : String) (n_chunks : List Nat) (i : Nat) (row : Row) :
    Option VirtualChunkSpec :=
  match pathValue row with
  | .str s => some ⟨(flat_to_chunk_index i n_chunks).map Int.ofNat, s,
      cellIntD ((row.lookup "offset").getD .null),
      cellIntD ((row.lookup size_col).getD .null)⟩
  | _ => none

/-- Well-typedness of one explicit-mode row: the `path` column exists and,
when the row's path is a string, every index column and the `offset` and
`length` columns exist and hold integers. -/
def explicitRowOk (cols : List String) (idx_cols : List String) (row : Row) : Bool :=
  cols.contains "path" &&
    match pathValue row with
    | .null => true
    | .str _ =>
        idx_cols.all (fun c => cols.contains c && cellIsInt ((row.lookup c).getD .null)) &&
        cols.contains "offset" && cellIsInt ((row.lookup "offset").getD .null) &&
        cols.contains "length" && cellIsInt ((row.lookup "length").getD .null)
    | .int _ => false

/-- Non-monadic description of what one explicit-mode row contributes: the
index tuple reads the given index columns in the given order. -/
def explicitEntry (idx_cols : List String) (row : Row) : Option VirtualChunkSpec :=
  match pathValue row with
  | .str s => some ⟨idx_cols.map (fun c => cellIntD ((row.lookup c).getD .null)), s,
      cellIntD ((row.lookup "offset").getD .null),
      cellIntD ((row.lookup "length").getD .null)⟩
  | _ => none

/-- Non-monadic description of the whole explicit conversion: one group per
first-appearance-ordered `variable` value, each built exclusively from the
rows whose `variable` cell equals that value. -/
def explicitGroupsSpec (idx_cols : List String) (df : Frame) :
    List (Cell × List VirtualChunkSpec) :=
  (pdUnique (df.rows.map varValue)).map (fun v =>
    (v, (df.rows.filter (fun r => pdEq (varValue r) v)).filterMap (explicitEntry idx_cols)))

/-- Well-formedness of an explicit-mode table: the `variable` column exists
and every row is well typed with respect to the table's index columns. -/
def ExplicitWF (df : Frame) : Prop :=
  df.cols.contains "variable" = true ∧
  ∀ row ∈ df.rows, explicitRowOk df.cols (idxColsOf df) row = true

instance (df : Frame) : Decidable (ExplicitWF df) :=
  inferInstanceAs (Decidable (_ ∧ _))

/-- Canonical index-column names `i0, i1, ..., i{n-1}` in dimension order. -/
def idxNames (n : Nat) : List String := (List.range n).map (fun d => "i" ++ toString d)

/-!
Concrete tables used as counterexamples and witnesses.  They correspond to
the spec's testable properties and the example tables in the source file's
`__main__` block.
-/

/-- Implicit 2x2 table (shape (2,2), chunks (1,1)) whose row at flat index
2 has a NaN path: spec testable property 2 (hole skipping). -/
def df4 : Frame :=
  ⟨["path", "offset", "size"],
   [[("path", .str "f"), ("offset", .int 0), ("size", .int 100)],
    [("path", .str "f"), ("offset", .int 100), ("size", .int 100)],
    [("path", .null), ("offset", .int 200), ("size", .int 100)],
    [("path", .str "f"), ("offset", .int 300), ("size", .int 100)]]⟩

/-- One-row implicit table used for the rank-mismatch counterexample. -/
def df1 : Frame :=
  ⟨["path", "offset", "size"],
   [[("path", .str "f"), ("offset", .int 0), ("size", .int 10)]]⟩

/-- Table without `size` and `length` columns whose single row has a NaN
path (no data): the converter never reads the size column. -/
def dfNull : Frame := ⟨["path", "offset"], [[("path", .null), ("offset", .int 0)]]⟩

/-- Table without `size` and `length` columns whose single row has data. -/
def dfNoSize : Frame := ⟨["path", "offset"], [[("path", .str "f"), ("offset", .int 0)]]⟩

/-- Explicit two-variable table of the source's example 2: variables `sst`
and `anom`, both with the full 2x2 coordinate set (spec scenario B). -/
def dfSA : Frame :=
  ⟨["variable", "i0", "i1", "path", "offset", "length"],
   [[("variable", .str "sst"), ("i0", .int 0), ("i1", .int 0),
     ("path", .str "s3://bucket/f.nc"), ("offset", .int 100), ("length", .int 100)],
    [("variable", .str "sst"), ("i0", .int 0), ("i1", .int 1),
     ("path", .str "s3://bucket/f.nc"), ("offset", .int 200), ("length", .int 100)],
    [("variable", .str "sst"), ("i0", .int 1), ("i1", .int 0),
     ("path", .str "s3://bucket/f.nc"), ("offset", .int 300), ("length", .int 100)],
    [("variable", .str "sst"), ("i0", .int 1), ("i1", .int 1),
     ("path", .str "s3://bucket/f.nc"), ("offset", .int 400), ("length", .int 100)],
    [("variable", .str "anom"), ("i0", .int 0), ("i1", .int 0),
     ("path", .str "s3://bucket/f.nc"), ("offset", .int 500), ("length", .int 100)],
    [("variable", .str "anom"), ("i0", .int 0), ("i1", .int 1),
     ("path", .str "s3://bucket/f.nc"), ("offset", .int 600), ("length", .int 100)],
    [("variable", .str "anom"), ("i0", .int 1), ("i1", .int 0),
     ("path", .str "s3://bucket/f.nc"), ("offset", .int 700), ("length", .int 100)],
    [("variable", .str "anom"), ("i0", .int 1), ("i1", .int 1),
     ("path", .str "s3://bucket/f.nc"), ("offset", .int 800), ("length", .int 100)]]⟩

/-- Single explicit-mode row of rank 11 with index value `d` in column
`i{d}`, so that dimension order and lexicographic column order differ. -/
def row11 : Row :=
  [("variable", .str "v")] ++
  ((List.range 11).map (fun d => (("i" ++ toString d), Cell.int d))) ++
  [("path", .str "p"), ("offset", .int 0), ("length", .int 1)]

/-- Rank-11 explicit table: columns `i0 .. i10` in dimension order. -/
def df11 : Frame :=
  ⟨["variable"] ++ (List.range 11).map (fun d => "i" ++ toString d) ++
     ["path", "offset", "length"],
   [row11]⟩

/-- Explicit-style table (has `variable`) with no `i{d}` columns at all. -/
def dfNoIdx : Frame :=
  ⟨["variable", "path", "offset", "length"],
   [[("variable", .str "v"), ("path", .str "p"), ("offset", .int 0), ("length", .int 10)]]⟩

/-- A sample per-variable metadata record. -/
def meta1 : VarMeta := ⟨[2, 2], [1, 1], "float32", ["lat", "lon"]⟩

/-!
Lemmas about `flat_to_chunk_index`.
-/

theorem flatToChunkGo_length (r : Nat) (l : List Nat) :
    (flatToChunkGo r l).length = l.length := by
  induction l generalizing r with
  | nil => rfl
  | cons n ns ih => simp [flatToChunkGo, ih]

theorem flat_to_chunk_index_length (r : Nat) (l : List Nat) :
    (flat_to_chunk_index r l).length = l.length := by
  simp [flat_to_chunk_index, flatToChunkGo_length]

theorem flat_to_chunk_index_nil (r : Nat) : flat_to_chunk_index r [] = [] := rfl

theorem flat_to_chunk_index_snoc (r n : Nat) (ds : List Nat) :
    flat_to_chunk_index r (ds ++ [n]) = flat_to_chunk_index (r / n) ds ++ [r % n] := by
  simp [flat_to_chunk_index, flatToChunkGo]

theorem flattenRowMajor_snoc (coord ds : List Nat) (c n : Nat)
    (h : coord.length = ds.length) :
    flattenRowMajor (coord ++ [c]) (ds ++ [n]) = flattenRowMajor coord ds * n + c := by
  unfold flattenRowMajor
  rw [List.zip_append h, List.foldl_append]
  rfl

theorem flat_to_chunk_index_mod (dims : List Nat) (flat : Nat)
    (hpos : ∀ n ∈ dims, 0 < n) :
    flat_to_chunk_index (flat % dims.prod) dims = flat_to_chunk_index flat dims := by
  induction dims using List.reverseRecOn generalizing flat with
  | nil => simp [flat_to_chunk_index, flatToChunkGo]
  | append_singleton ds n ih =>
    have hn : 0 < n := hpos n (by simp)
    have hds : ∀ m ∈ ds, 0 < m := fun m hm => hpos m (by simp [hm])
    have hprod : (ds ++ [n]).prod = ds.prod * n := by simp
    rw [hprod, flat_to_chunk_index_snoc, flat_to_chunk_index_snoc]
    have h1 : flat % (ds.prod * n) % n = flat % n :=
      Nat.mod_mod_of_dvd flat (dvd_mul_left n ds.prod)
    have h2 : flat % (ds.prod * n) / n = flat / n % ds.prod := by
      rw [Nat.mul_comm ds.prod n]
      exact Nat.mod_mul_right_div_self flat n ds.prod
    rw [h1, h2, ih (flat / n) hds]

theorem flat_to_chunk_index_bounds (dims : List Nat) (flat : Nat)
    (hpos : ∀ n ∈ dims, 0 < n) :
    ∀ p ∈ (flat_to_chunk_index flat dims).zip dims, p.1 < p.2 := by
  induction dims using List.reverseRecOn generalizing flat with
  | nil => simp [flat_to_chunk_index, flatToChunkGo]
  | append_singleton ds n ih =>
    have hn : 0 < n := hpos n (by simp)
    have hds : ∀ m ∈ ds, 0 < m := fun m hm => hpos m (by simp [hm])
    rw [flat_to_chunk_index_snoc,
      List.zip_append (flat_to_chunk_index_length (flat / n) ds)]
    intro p hp
    rcases List.mem_append.1 hp with h | h
    · exact ih (flat / n) hds p h
    · have : p = (flat % n, n) := by simpa using h
      rw [this]
      exact Nat.mod_lt _ hn

/-- C1: for all positive per-dimension chunk counts and every flat index in
range, row-major flattening of `flat_to_chunk_index(flatIndex, counts)`
reproduces `flatIndex`: the function is the exact inverse of row-major
flattening on `[0, product(counts))`. -/
theorem c1_flat_index_roundtrip (dims : List Nat) (flat : Nat)
    (hpos : ∀ n ∈ dims, 0 < n) (hlt : flat < dims.prod) :
    flattenRowMajor (flat_to_chunk_index flat dims) dims = flat := by
  induction dims using List.reverseRecOn generalizing flat with
  | nil =>
    simp at hlt
    simp [hlt, flat_to_chunk_index, flatToChunkGo, flattenRowMajor]
  | append_singleton ds n ih =>
    have hn : 0 < n := hpos n (by simp)
    have hds : ∀ m ∈ ds, 0 < m := fun m hm => hpos m (by simp [hm])
    have hprod : (ds ++ [n]).prod = ds.prod * n := by simp
    rw [hprod] at hlt
    have hdiv : flat / n < ds.prod := (Nat.div_lt_iff_lt_mul hn).2 hlt
    rw [flat_to_chunk_index_snoc,
      flattenRowMajor_snoc _ _ _ _ (flat_to_chunk_index_length (flat / n) ds),
      ih (flat / n) hds hdiv, Nat.mul_comm, Nat.div_add_mod]

/-- Witness for C1 at counts (2,3) and flat index 5. -/
theorem c1_witness :
    flattenRowMajor (flat_to_chunk_index 5 [2, 3]) [2, 3] = 5 :=
  c1_flat_index_roundtrip [2, 3] 5 (by decide) (by decide)

/-- Counterexample to C2: at counts (2,2) the out-of-range flat index 4
does not fail; `flat_to_chunk_index` returns the silently wrapped
coordinate (0,0), the same coordinate as flat index 0. -/
theorem c2_counterexample :
    flat_to_chunk_index 4 [2, 2] = [0, 0] ∧
    flat_to_chunk_index 4 [2, 2] = flat_to_chunk_index 0 [2, 2] := by
  decide

/-- C2 amended: `flat_to_chunk_index` performs no range check.  For every
flat index at or above `product(counts)` it returns, without error, the
coordinate of some in-range flat index (namely `flatIndex mod product`):
out-of-range indices are silently wrapped, aliasing an in-range index. -/
theorem c2_out_of_range_wraps (dims : List Nat) (flat : Nat)
    (hpos : ∀ n ∈ dims, 0 < n) (hge : dims.prod ≤ flat) :
    ∃ flat2 : Nat, flat2 < dims.prod ∧
      flat_to_chunk_index flat dims = flat_to_chunk_index flat2 dims :=
  ⟨flat % dims.prod, Nat.mod_lt _ (List.prod_pos hpos),
    (flat_to_chunk_index_mod dims flat hpos).symm⟩

/-- Witness for the amended C2 at counts (2,2) and flat index 4. -/
theorem c2_witness :
    ∃ flat2 : Nat, flat2 < ([2, 2] : List Nat).prod ∧
      flat_to_chunk_index 4 [2, 2] = flat_to_chunk_index flat2 [2, 2] :=
  c2_out_of_range_wraps [2, 2] 4 (by decide) (by decide)

/-- C10: for positive chunk counts, `flat_to_chunk_index` wraps any flat
index modulo the total chunk count (so out-of-range indices alias the
coordinate of an in-range index), and every returned coordinate component
is strictly below its dimension's chunk count. -/
theorem c10_wraparound_and_bounds (dims : List Nat) (flat : Nat)
    (hpos : ∀ n ∈ dims, 0 < n) :
    flat_to_chunk_index flat dims = flat_to_chunk_index (flat % dims.prod) dims ∧
    ∀ p ∈ (flat_to_chunk_index flat dims).zip dims, p.1 < p.2 :=
  ⟨(flat_to_chunk_index_mod dims flat hpos).symm,
    flat_to_chunk_index_bounds dims flat hpos⟩

/-- Witness for C10 at counts (2,2) and flat index 7. -/
theorem c10_witness :
    flat_to_chunk_index 7 [2, 2] = flat_to_chunk_index (7 % ([2, 2] : List Nat).prod) [2, 2] ∧
    ∀ p ∈ (flat_to_chunk_index 7 [2, 2]).zip [2, 2], p.1 < p.2 :=
  c10_wraparound_and_bounds [2, 2] 7 (by decide)

/-!
Lemmas about the implicit-mode converter.
-/

theorem exceptOkBind {ε α β : Type} (a : α) (f : α → Except ε β) :
    (Except.ok a : Except ε α) >>= f = f a := rfl

theorem exceptErrorBind {ε α β : Type} (e : ε) (f : α → Except ε β) :
    (Except.error e : Except ε α) >>= f = Except.error e := rfl

theorem getCell_ok (cols : List String) (row : Row) (c : String)
    (h : cols.contains c = true) :
    getCell cols row c = .ok ((row.lookup c).getD .null) := by
  unfold getCell
  rw [if_pos h]

theorem getCell_err (cols : List String) (row : Row) (c : String)
    (h : cols.contains c = false) :
    getCell cols row c = .error (.keyError c) := by
  unfold getCell
  rw [if_neg (by simpa using h)]

theorem getPath_ok (cols : List String) (row : Row)
    (h : cols.contains "path" = true) :
    getCell cols row "path" = .ok (pathValue row) :=
  getCell_ok cols row "path" h

theorem cellInt_of_isInt (c : Cell) (h : cellIsInt c = true) :
    cellInt c = .ok (cellIntD c) := by
  cases c <;> simp_all [cellIsInt, cellInt, cellIntD]

theorem kerchunkLoop_eq (cols : List String) (size_col : String) (n_chunks : List Nat)
    (rows : List Row) (i : Nat)
    (h : ∀ row ∈ rows, implicitRowOk cols size_col row = true) :
    kerchunkLoop cols size_col n_chunks i rows =
      .ok ((rows.enumFrom i).filterMap (fun p => implicitEntry size_col n_chunks p.1 p.2)) := by
  induction rows generalizing i with
  | nil => rfl
  | cons row rest ih =>
    have hrow : implicitRowOk cols size_col row = true := h row (by simp)
    have hrest : ∀ r ∈ rest, implicitRowOk cols size_col r = true :=
      fun r hr => h r (List.mem_cons_of_mem _ hr)
    cases hpv : pathValue row with
    | null =>
      simp only [implicitRowOk, hpv, Bool.and_true] at hrow
      simp only [kerchunkLoop, getPath_ok cols row hrow, exceptOkBind, hpv,
        if_pos rfl, List.enumFrom, List.filterMap_cons]
      rw [ih (i + 1) hrest]
      simp [implicitEntry, hpv]
    | str s =>
      simp only [implicitRowOk, hpv, Bool.and_eq_true, and_assoc] at hrow
      obtain ⟨hpath, hoff, hsz, hoffint, hszint⟩ := hrow
      simp only [kerchunkLoop, getPath_ok cols row hpath, exceptOkBind, hpv,
        cellStr, getCell_ok cols row "offset" hoff, getCell_ok cols row size_col hsz,
        cellInt_of_isInt _ hoffint, cellInt_of_isInt _ hszint,
        List.enumFrom, List.filterMap_cons]
      rw [if_neg (by simp), ih (i + 1) hrest]
      simp [implicitEntry, hpv, exceptOkBind]
    | int k =>
      simp [implicitRowOk, hpv] at hrow

/-- C3: on every well-typed implicit-mode table, the converter succeeds and
its output is exactly the enumeration-ordered filter-map that skips each
NaN-path row and maps each row at position `i` with a string path to one
entry whose coordinate is `flat_to_chunk_index i counts` and whose
reference is the row's path, offset and size values. -/
theorem c3_implicit_rows (df : Frame) (shape chunks : List Nat)
    (dtype : String) (dims : List String) (var : String)
    (h : ∀ row ∈ df.rows, implicitRowOk df.cols (size_col_of df.cols) row = true) :
    kerchunk_parquet_to_icechunk df shape chunks dtype dims var =
      .ok (df.rows.enum.filterMap (fun p =>
        implicitEntry (size_col_of df.cols) (chunkCounts shape chunks) p.1 p.2)) := by
  unfold kerchunk_parquet_to_icechunk
  rw [kerchunkLoop_eq df.cols (size_col_of df.cols) (chunkCounts shape chunks) df.rows 0 h]
  rfl

/-- Witness for C3: the spec's hole-skipping table (4 rows, NaN path at
flat index 2, shape (2,2), chunks (1,1)) yields exactly 3 entries, and no
entry carries the coordinate (1,0) of flat index 2. -/
theorem c3_witness :
    (∀ row ∈ df4.rows, implicitRowOk df4.cols (size_col_of df4.cols) row = true) ∧
    kerchunk_parquet_to_icechunk df4 [2, 2] [1, 1] "float32" ["lat", "lon"] "data" =
      .ok [⟨[0, 0], "f", 0, 100⟩, ⟨[0, 1], "f", 100, 100⟩, ⟨[1, 1], "f", 300, 100⟩] ∧
    (∀ s ∈ [(⟨[0, 0], "f", 0, 100⟩ : VirtualChunkSpec), ⟨[0, 1], "f", 100, 100⟩,
        ⟨[1, 1], "f", 300, 100⟩],
      s.index ≠ (flat_to_chunk_index 2 (chunkCounts [2, 2] [1, 1])).map Int.ofNat) :=
  ⟨by decide,
   by
     rw [c3_implicit_rows df4 [2, 2] [1, 1] "float32" ["lat", "lon"] "data" (by decide)]
     rfl,
   by decide⟩

/-- Counterexample to C5: a conversion whose shape has rank 2 and whose
chunk tuple has rank 3 does not raise any rank-mismatch error; it
produces entries (with rank-2 coordinates from the truncated zip). -/
theorem c5_counterexample :
    kerchunk_parquet_to_icechunk df1 [2, 2] [1, 1, 1] "float32" ["lat", "lon"] "data" =
      .ok [⟨[0, 0], "f", 0, 10⟩] := by
  decide

/-- C5 amended: implicit-mode conversion never checks that shape and chunk
ranks agree.  Python's `zip` silently truncates both tuples to the
shorter rank, so the conversion behaves exactly as if called with the
truncated shape and chunk tuples (and produces coordinates of the
truncated rank) instead of failing. -/
theorem c5_rank_mismatch_truncates (df : Frame) (shape chunks : List Nat)
    (dtype : String) (dims : List String) (var : String) :
    kerchunk_parquet_to_icechunk df shape chunks dtype dims var =
      kerchunk_parquet_to_icechunk df
        (shape.take (min shape.length chunks.length))
        (chunks.take (min shape.length chunks.length)) dtype dims var := by
  have hz : (shape.take (min shape.length chunks.length)).zip
      (chunks.take (min shape.length chunks.length)) = shape.zip chunks := by
    have h1 : (shape.zip chunks).take (min shape.length chunks.length) =
        (shape.take (min shape.length chunks.length)).zip
          (chunks.take (min shape.length chunks.length)) := by
      simp [List.zip, List.take_zipWith]
    rw [← h1, ← List.length_zip, List.take_length]
  unfold kerchunk_parquet_to_icechunk chunkCounts
  rw [hz]

/-!
Lemmas for the missing-size-column behavior.
-/

theorem kerchunkLoop_all_null (cols : List String) (size_col : String)
    (n_chunks : List Nat) (i : Nat) (rows : List Row)
    (h : ∀ row ∈ rows, cols.contains "path" = true ∧ pathValue row = .null) :
    kerchunkLoop cols size_col n_chunks i rows = .ok [] := by
  induction rows generalizing i with
  | nil => rfl
  | cons row rest ih =>
    have hrow := h row (by simp)
    have hrest : ∀ r ∈ rest, cols.contains "path" = true ∧ pathValue r = .null :=
      fun r hr => h r (List.mem_cons_of_mem _ hr)
    simp only [kerchunkLoop, getPath_ok cols row hrow.1, exceptOkBind, hrow.2, if_pos rfl]
    exact ih (i + 1) hrest

theorem kerchunkLoop_missing_length (cols : List String) (n_chunks : List Nat)
    (i : Nat) (rows : List Row)
    (hlen : cols.contains "length" = false)
    (hpre : ∀ row ∈ rows, implicitPreOk cols row = true)
    (hex : ∃ row ∈ rows, pathValue row ≠ .null) :
    kerchunkLoop cols "length" n_chunks i rows = .error (.keyError "length") := by
  induction rows generalizing i with
  | nil => simp at hex
  | cons row rest ih =>
    have hrow : implicitPreOk cols row = true := hpre row (by simp)
    have hrest : ∀ r ∈ rest, implicitPreOk cols r = true :=
      fun r hr => hpre r (List.mem_cons_of_mem _ hr)
    cases hpv : pathValue row with
    | null =>
      simp only [implicitPreOk, hpv, Bool.and_true] at hrow
      have hex2 : ∃ r ∈ rest, pathValue r ≠ .null := by
        rcases hex with ⟨r, hr, hne⟩
        rcases List.mem_cons.1 hr with rfl | hmem
        · exact absurd hpv hne
        · exact ⟨r, hmem, hne⟩
      simp only [kerchunkLoop, getPath_ok cols row hrow, exceptOkBind, hpv, if_pos rfl]
      exact ih (i + 1) hrest hex2
    | str s =>
      simp only [implicitPreOk, hpv, Bool.and_eq_true, and_assoc] at hrow
      obtain ⟨hpath, hoff, hoffint⟩ := hrow
      simp only [kerchunkLoop, getPath_ok cols row hpath, exceptOkBind, hpv,
        cellStr, getCell_ok cols row "offset" hoff, cellInt_of_isInt _ hoffint,
        getCell_err cols row "length" hlen, exceptErrorBind]
      rw [if_neg (by simp)]
    | int k =>
      simp [implicitPreOk, hpv] at hrow

/-- Counterexample to C8: an implicit-mode table with neither a `size` nor
a `length` column, but whose only row has a NaN path, converts without
any error to the empty spec list — the missing column is not detected
eagerly. -/
theorem c8_counterexample :
    kerchunk_parquet_to_icechunk dfNull [2] [1] "float32" ["x"] "v" = .ok [] := by
  decide

/-- C8 amended: when both size column names are absent, the failure (a
`KeyError` on `"length"`) occurs only upon reaching the first row whose
path is non-NaN; a table all of whose rows have NaN paths (or no rows at
all) converts without error to the empty entry list. -/
theorem c8_missing_size_column (df : Frame) (shape chunks : List Nat)
    (dtype : String) (dims : List String) (var : String)
    (hsize : df.cols.contains "size" = false)
    (hlen : df.cols.contains "length" = false)
    (hpre : ∀ row ∈ df.rows, implicitPreOk df.cols row = true) :
    ((∃ row ∈ df.rows, pathValue row ≠ .null) →
      kerchunk_parquet_to_icechunk df shape chunks dtype dims var =
        .error (.keyError "length")) ∧
    ((∀ row ∈ df.rows, pathValue row = .null) →
      kerchunk_parquet_to_icechunk df shape chunks dtype dims var = .ok []) := by
  have hsc : size_col_of df.cols = "length" := by
    unfold size_col_of
    rw [if_neg (by simpa using hsize)]
  unfold kerchunk_parquet_to_icechunk
  rw [hsc]
  constructor
  · intro hex
    exact kerchunkLoop_missing_length df.cols (chunkCounts shape chunks) 0 df.rows
      hlen hpre hex
  · intro hnull
    refine kerchunkLoop_all_null df.cols "length" (chunkCounts shape chunks) 0 df.rows
      (fun r hr => ⟨?_, hnull r hr⟩)
    have hp := hpre r hr
    simp only [implicitPreOk, Bool.and_eq_true] at hp
    exact hp.1

/-- Witness for the amended C8: the one-row no-size-column table with data
fails with `KeyError("length")`. -/
theorem c8_witness :
    kerchunk_parquet_to_icechunk dfNoSize [2] [1] "float32" ["x"] "v" =
      .error (.keyError "length") :=
  (c8_missing_size_column dfNoSize [2] [1] "float32" ["x"] "v"
      (by decide) (by decide) (by decide)).1
    ⟨[("path", .str "f"), ("offset", .int 0)], by decide, by decide⟩

/-!
Order properties of Python's string comparison, needed to reason about
`sorted` on index-column names.
-/

theorem charListLe_total (x y : List Char) :
    charListLe x y = true ∨ charListLe y x = true := by
  induction x generalizing y with
  | nil => left; rfl
  | cons a as ih =>
    cases y with
    | nil => right; rfl
    | cons b bs =>
      by_cases hab : a = b
      · subst hab
        simp only [charListLe, if_pos rfl]
        exact ih bs
      · rcases Ne.lt_or_lt hab with h | h
        · left
          simp only [charListLe, if_neg hab]
          exact decide_eq_true h
        · right
          simp only [charListLe, if_neg (Ne.symm hab)]
          exact decide_eq_true h

theorem charListLe_trans (x y z : List Char)
    (hxy : charListLe x y = true) (hyz : charListLe y z = true) :
    charListLe x z = true := by
  induction x generalizing y z with
  | nil => rfl
  | cons a as ih =>
    cases y with
    | nil => simp [charListLe] at hxy
    | cons b bs =>
      cases z with
      | nil => simp [charListLe] at hyz
      | cons c cs =>
        simp only [charListLe] at hxy hyz ⊢
        by_cases hab : a = b
        · subst hab
          by_cases hac : a = c
          · subst hac
            rw [if_pos rfl] at hxy hyz ⊢
            exact ih bs cs hxy hyz
          · rw [if_pos rfl] at hxy
            rw [if_neg hac] at hyz ⊢
            exact hyz
        · by_cases hbc : b = c
          · subst hbc
            rw [if_neg hab] at hxy ⊢
            exact hxy
          · rw [if_neg hab] at hxy
            rw [if_neg hbc] at hyz
            have h3 : a < c := lt_trans (of_decide_eq_true hxy) (of_decide_eq_true hyz)
            rw [if_neg (ne_of_lt h3)]
            exact decide_eq_true h3

theorem charListLe_antisymm (x y : List Char)
    (hxy : charListLe x y = true) (hyx : charListLe y x = true) : x = y := by
  induction x generalizing y with
  | nil =>
    cases y with
    | nil => rfl
    | cons b bs => simp [charListLe] at hyx
  | cons a as ih =>
    cases y with
    | nil => simp [charListLe] at hxy
    | cons b bs =>
      simp only [charListLe] at hxy hyx
      by_cases hab : a = b
      · subst hab
        rw [if_pos rfl] at hxy hyx
        rw [ih bs hxy hyx]
      · rw [if_neg hab] at hxy
        rw [if_neg (Ne.symm hab)] at hyx
        exact absurd (of_decide_eq_true hyx) (lt_asymm (of_decide_eq_true hxy))

theorem string_toList_inj {a b : String} (h : a.toList = b.toList) : a = b := by
  cases a
  cases b
  simp only [String.toList] at h
  rw [h]

instance : IsTotal String pyLe := ⟨fun a b => charListLe_total a.toList b.toList⟩

instance : IsTrans String pyLe :=
  ⟨fun a b c => charListLe_trans a.toList b.toList c.toList⟩

instance : IsAntisymm String pyLe :=
  ⟨fun a b h1 h2 => string_toList_inj (charListLe_antisymm a.toList b.toList h1 h2)⟩

theorem idxNames_sorted (n : Nat) (hn : n ≤ 10) : List.Sorted pyLe (idxNames n) := by
  interval_cases n <;> decide

theorem idxColsOf_of_perm (df : Frame) (n : Nat) (hn : n ≤ 10)
    (hperm : List.Perm (df.cols.filter (fun c => isIdxCol c)) (idxNames n)) :
    idxColsOf df = idxNames n := by
  unfold idxColsOf pySorted
  exact List.eq_of_perm_of_sorted ((List.perm_insertionSort pyLe _).trans hperm)
    (List.sorted_insertionSort pyLe _) (idxNames_sorted n hn)

/-!
Characterization of the explicit-mode converter.
-/

theorem collectIdx_ok (cols : List String) (row : Row) (idx_cols : List String)
    (h : idx_cols.all (fun c => cols.contains c && cellIsInt ((row.lookup c).getD .null)) = true) :
    collectIdx cols row idx_cols =
      .ok (idx_cols.map (fun c => cellIntD ((row.lookup c).getD .null))) := by
  induction idx_cols with
  | nil => rfl
  | cons c cs ih =>
    simp only [List.all_cons, Bool.and_eq_true] at h
    obtain ⟨⟨hc, hint⟩, hcs⟩ := h
    simp only [collectIdx, getCell_ok cols row c hc, exceptOkBind,
      cellInt_of_isInt _ hint, ih hcs, List.map_cons]

theorem explicitLoop_eq (cols : List String) (idx_cols : List String) (rows : List Row)
    (h : ∀ row ∈ rows, explicitRowOk cols idx_cols row = true) :
    explicitLoop cols idx_cols rows = .ok (rows.filterMap (explicitEntry idx_cols)) := by
  induction rows with
  | nil => rfl
  | cons row rest ih =>
    have hrow : explicitRowOk cols idx_cols row = true := h row (by simp)
    have hrest : ∀ r ∈ rest, explicitRowOk cols idx_cols r = true :=
      fun r hr => h r (List.mem_cons_of_mem _ hr)
    cases hpv : pathValue row with
    | null =>
      simp only [explicitRowOk, hpv, Bool.and_true] at hrow
      simp only [explicitLoop, getPath_ok cols row hrow, exceptOkBind, hpv, if_pos rfl,
        List.filterMap_cons]
      rw [ih hrest]
      simp [explicitEntry, hpv]
    | str s =>
      simp only [explicitRowOk, hpv, Bool.and_eq_true, and_assoc] at hrow
      obtain ⟨hpath, hidx, hoff, hoffint, hlen, hlenint⟩ := hrow
      simp only [explicitLoop, getPath_ok cols row hpath, exceptOkBind, hpv,
        collectIdx_ok cols row idx_cols hidx, cellStr,
        getCell_ok cols row "offset" hoff, cellInt_of_isInt _ hoffint,
        getCell_ok cols row "length" hlen, cellInt_of_isInt _ hlenint,
        List.filterMap_cons]
      rw [if_neg (by simp), ih hrest]
      simp [explicitEntry, hpv, exceptOkBind]
    | int k =>
      simp [explicitRowOk, hpv] at hrow

theorem explicitGroups_eq (cols : List String) (idx_cols : List String)
    (rows : List Row) (vs : List Cell)
    (h : ∀ row ∈ rows, explicitRowOk cols idx_cols row = true) :
    explicitGroups cols idx_cols vs rows =
      .ok (vs.map (fun v =>
        (v, (rows.filter (fun r => pdEq ((r.lookup "variable").getD .null) v)).filterMap
          (explicitEntry idx_cols)))) := by
  induction vs with
  | nil => rfl
  | cons v vs ih =>
    have hf : ∀ r ∈ rows.filter (fun r => pdEq ((r.lookup "variable").getD .null) v),
        explicitRowOk cols idx_cols r = true :=
      fun r hr => h r (List.mem_of_mem_filter hr)
    simp only [explicitGroups, explicitLoop_eq cols idx_cols _ hf, exceptOkBind, ih,
      List.map_cons]

theorem explicit_ok (df : Frame) (h : ExplicitWF df) :
    explicit_parquet_to_icechunk df = .ok (explicitGroupsSpec (idxColsOf df) df) := by
  obtain ⟨hvar, hrows⟩ := h
  unfold explicit_parquet_to_icechunk
  rw [show getColumn df "variable" = .ok (df.rows.map varValue) from by
    unfold getColumn varValue
    rw [if_pos hvar]]
  simp only [exceptOkBind]
  rw [explicitGroups_eq df.cols (idxColsOf df) df.rows _ hrows]
  rfl

/-- C7: explicit conversion groups rows by the `variable` column — every
well-formed table converts to one output per variable value, each built
exclusively from the rows whose `variable` equals that value — and on the
concrete two-variable table (`sst` and `anom`, each with the full 2x2
coordinate set) it yields two independent groups of 4 entries each, with
no cross-contamination. -/
theorem c7_variable_grouping (df : Frame) (h : ExplicitWF df) :
    explicit_parquet_to_icechunk df = .ok (explicitGroupsSpec (idxColsOf df) df) ∧
    explicit_parquet_to_icechunk dfSA =
      .ok [(.str "sst",
        [⟨[0, 0], "s3://bucket/f.nc", 100, 100⟩, ⟨[0, 1], "s3://bucket/f.nc", 200, 100⟩,
         ⟨[1, 0], "s3://bucket/f.nc", 300, 100⟩, ⟨[1, 1], "s3://bucket/f.nc", 400, 100⟩]),
       (.str "anom",
        [⟨[0, 0], "s3://bucket/f.nc", 500, 100⟩, ⟨[0, 1], "s3://bucket/f.nc", 600, 100⟩,
         ⟨[1, 0], "s3://bucket/f.nc", 700, 100⟩, ⟨[1, 1], "s3://bucket/f.nc", 800, 100⟩])] :=
  ⟨explicit_ok df h, by decide⟩

/-- Witness for C7 at the concrete two-variable table. -/
theorem c7_witness :
    ExplicitWF dfSA ∧
    explicit_parquet_to_icechunk dfSA = .ok (explicitGroupsSpec (idxColsOf dfSA) dfSA) :=
  ⟨by decide, (c7_variable_grouping dfSA (by decide)).1⟩

/-- Counterexample to C9: a table with a `variable` column but no `i{d}`
columns at all does not fail with any missing-index-columns error; the
converter produces an entry with an empty (rank-0) coordinate. -/
theorem c9_counterexample :
    explicit_parquet_to_icechunk dfNoIdx = .ok [(.str "v", [⟨[], "p", 0, 10⟩])] := by
  decide

/-- C9 amended: when the table has no index columns matching the `i{d}`
pattern, explicit conversion does not fail; it succeeds and every
produced entry has the empty coordinate tuple. -/
theorem c9_no_index_columns (df : Frame)
    (hno : df.cols.filter (fun c => isIdxCol c) = [])
    (h : ExplicitWF df) :
    explicit_parquet_to_icechunk df = .ok (explicitGroupsSpec [] df) ∧
    ∀ p ∈ explicitGroupsSpec [] df, ∀ s ∈ p.2, s.index = [] := by
  have hidx : idxColsOf df = [] := by
    unfold idxColsOf pySorted
    rw [hno]
    rfl
  constructor
  · have he := explicit_ok df h
    rwa [hidx] at he
  · intro p hp s hs
    simp only [explicitGroupsSpec, List.mem_map] at hp
    obtain ⟨v, hv, rfl⟩ := hp
    simp only [List.mem_filterMap] at hs
    obtain ⟨row, hrow, he⟩ := hs
    unfold explicitEntry at he
    cases hpv : pathValue row <;> rw [hpv] at he
    · simp at he
    · simp only [Option.some.injEq] at he
      rw [← he]
      rfl
    · simp at he

/-- Witness for the amended C9 at the concrete no-index-column table. -/
theorem c9_witness :
    dfNoIdx.cols.filter (fun c => isIdxCol c) = [] ∧ ExplicitWF dfNoIdx ∧
    explicit_parquet_to_icechunk dfNoIdx = .ok (explicitGroupsSpec [] dfNoIdx) :=
  ⟨by decide, by decide, (c9_no_index_columns dfNoIdx (by decide) (by decide)).1⟩

/-- Counterexample to C4: on a rank-11 table whose row holds value `d` in
index column `i{d}`, the produced coordinate follows the lexicographic
order of the column names (`i10` sorts before `i2`), not dimension order:
the entry's index is (0,1,10,2,3,4,5,6,7,8,9) instead of (0,1,2,...,10). -/
theorem c4_counterexample :
    explicit_parquet_to_icechunk df11 =
      .ok [(.str "v", [⟨[0, 1, 10, 2, 3, 4, 5, 6, 7, 8, 9], "p", 0, 1⟩])] ∧
    ([0, 1, 10, 2, 3, 4, 5, 6, 7, 8, 9] : List Int) ≠
      [0, 1, 2, 3, 4, 5, 6, 7, 8, 9, 10] := by
  constructor
  · decide
  · decide

/-- C4 amended: the rank is inferred as the number of columns matching the
`i{d}` pattern, and the coordinate components follow the lexicographic
order of the column names.  For contiguous index columns `i0..i{rank-1}`
this equals dimension order exactly when the rank is at most 10 (for
larger ranks `i10` sorts before `i2`, as the counterexample shows). -/
theorem c4_index_column_order (df : Frame) (n : Nat) (hn : n ≤ 10)
    (hperm : List.Perm (df.cols.filter (fun c => isIdxCol c)) (idxNames n))
    (h : ExplicitWF df) :
    idxColsOf df = idxNames n ∧
    (idxColsOf df).length = n ∧
    explicit_parquet_to_icechunk df = .ok (explicitGroupsSpec (idxNames n) df) ∧
    ∀ (row : Row) (s : VirtualChunkSpec), explicitEntry (idxNames n) row = some s →
      s.index = (List.range n).map
        (fun d => cellIntD ((row.lookup ("i" ++ toString d)).getD .null)) := by
  have hidx := idxColsOf_of_perm df n hn hperm
  refine ⟨hidx, by rw [hidx]; simp [idxNames], ?_, ?_⟩
  · have he := explicit_ok df h
    rwa [hidx] at he
  · intro row s he
    unfold explicitEntry at he
    cases hpv : pathValue row <;> rw [hpv] at he
    · simp at he
    · simp only [Option.some.injEq] at he
      rw [← he]
      simp [idxNames, List.map_map]
    · simp at he

/-- Witness for the amended C4 at the rank-2 two-variable table. -/
theorem c4_witness :
    idxColsOf dfSA = idxNames 2 ∧
    explicit_parquet_to_icechunk dfSA = .ok (explicitGroupsSpec (idxNames 2) dfSA) := by
  have hperm : List.Perm (dfSA.cols.filter (fun c => isIdxCol c)) (idxNames 2) := by
    rw [show dfSA.cols.filter (fun c => isIdxCol c) = idxNames 2 from by decide]
  have hc := c4_index_column_order dfSA 2 (by norm_num) hperm (by decide)
  exact ⟨hc.1, hc.2.2.1⟩

/-- C6: the entry function selects explicit conversion exactly when the
table has a `variable` column and at least one `i{d}` column; otherwise it
takes the implicit path, which fails with the ambiguous-variable
`ValueError` whenever more than one variable's layout is supplied, and
with a single layout runs the implicit converter on that layout. -/
theorem c6_mode_dispatch (df : Frame) (metadata : List (String × VarMeta)) :
    ((df.cols.contains "variable" && df.cols.any (fun c => isIdxCol c)) = true →
      create_icechunk_from_flat_parquet df metadata =
        (explicit_parquet_to_icechunk df).map FlatSpecs.explicitMode) ∧
    ((df.cols.contains "variable" && df.cols.any (fun c => isIdxCol c)) = false →
      2 ≤ metadata.length →
      create_icechunk_from_flat_parquet df metadata =
        .error (.valueError "Implicit format requires exactly one variable in metadata")) ∧
    ((df.cols.contains "variable" && df.cols.any (fun c => isIdxCol c)) = false →
      ∀ (var : String) (meta : VarMeta),
        create_icechunk_from_flat_parquet df [(var, meta)] =
          (kerchunk_parquet_to_icechunk df meta.shape meta.chunks meta.dtype meta.dims var).map
            (FlatSpecs.implicitMode var)) := by
  refine ⟨?_, ?_, ?_⟩
  · intro hcond
    simp only [create_icechunk_from_flat_parquet, hcond, if_pos rfl]
    cases he : explicit_parquet_to_icechunk df <;>
      simp [he, Except.map, exceptOkBind, exceptErrorBind]
  · intro hcond h2
    simp only [create_icechunk_from_flat_parquet, hcond]
    rw [if_neg (by simp)]
    rcases metadata with _ | ⟨⟨var, meta⟩, _ | ⟨q, rest⟩⟩
    · simp at h2
    · simp at h2
    · rfl
  · intro hcond var meta
    simp only [create_icechunk_from_flat_parquet, hcond]
    rw [if_neg (by simp)]
    cases hk : kerchunk_parquet_to_icechunk df meta.shape meta.chunks meta.dtype meta.dims var <;>
      simp [hk, Except.map, exceptOkBind, exceptErrorBind]

/-- Witness for C6: the `{variable, i0, i1, path, offset, length}` table
dispatches to explicit mode; the `{path, offset, size}` table dispatches
to implicit mode, which errors when two layouts are supplied and runs the
implicit converter when exactly one is. -/
theorem c6_witness :
    create_icechunk_from_flat_parquet dfSA [] =
      (explicit_parquet_to_icechunk dfSA).map FlatSpecs.explicitMode ∧
    create_icechunk_from_flat_parquet df4 [("a", meta1), ("b", meta1)] =
      .error (.valueError "Implicit format requires exactly one variable in metadata") ∧
    create_icechunk_from_flat_parquet df4 [("data", meta1)] =
      (kerchunk_parquet_to_icechunk df4 meta1.shape meta1.chunks meta1.dtype meta1.dims
        "data").map (FlatSpecs.implicitMode "data") :=
  ⟨(c6_mode_dispatch dfSA []).1 (by decide),
   (c6_mode_dispatch df4 [("a", meta1), ("b", meta1)]).2.1 (by decide) (by decide),
   (c6_mode_dispatch df4 [("data", meta1)]).2.2 (by decide) "data" meta1⟩

end ParquetToIcechunk
